import Mathlib

/-!
Shallow embedding of `src/unified-deployment.py` (the workload placement and
deployment orchestrator) and proofs about its selection, telemetry, dispatch
and driver logic.

Modelling conventions:
* A `subprocess.run` invocation is modelled by a `ProcResult`: either a
  completed process with an exit code and captured stdout (`ProcResult.ok`),
  or a raised exception — timeout, OS error, `CalledProcessError` from
  `check=True`, and so on (`ProcResult.exn`).
* All remote interactions go through an `Env` of response functions keyed by
  host name (resp. command string), standing for the network's behaviour
  during one run.  The Python code is single-threaded and sequential, so a
  run is a pure function of the `Env`.
* Python `float` arithmetic on these small integer inputs is modelled with
  exact rationals (`Rat`); every comparison the claims depend on is exact.
* A Python exception that escapes a function is modelled by `Option`/`Except`
  (`none`/`.error` = raised); an exception that the source catches is
  resolved inside the definition, mirroring the `try/except` structure.
-/

/-- Outcome of one `subprocess.run` call: a completed process with its return
code and stdout, or a raised exception (timeout, transport error, ...). -/
inductive ProcResult where
  | ok (returncode : Int) (stdout : String)
  | exn
  deriving Repr, DecidableEq

/-- The external world for one orchestrator run: responses of the `ping`
probe, the `ssh ... echo` handshake, the remote `nvidia-smi` telemetry query,
the `rsync` payload sync and the remote deploy command (all keyed by host),
and of the local Mac setup commands (keyed by command string). -/
structure Env where
  ping : String → ProcResult
  ssh_echo : String → ProcResult
  nvidia : String → ProcResult
  rsync : String → ProcResult
  deploy_ssh : String → ProcResult
  local_cmd : String → ProcResult

/-- The `SystemConfig` dataclass of the source. -/
structure SystemConfig where
  name : String
  type : String
  host : String
  gpu_count : Nat
  vram_total : String
  role : String
  priority : Nat
  deriving Repr, DecidableEq

/-- Host registry, `UnifiedOrchestrator.load_system_configs`. -/
def load_system_configs : List SystemConfig :=
  [ ⟨"mac-studio", "mac", "localhost", 0, "0GB", "development_control", 1⟩,
    ⟨"dgx-spark", "dgx-spark", "dgx-spark.lab", 2, "160GB", "orchestration_gateway", 2⟩,
    ⟨"hpc-1", "hpc", "hpc-1.lab", 2, "192GB", "primary_inference", 3⟩,
    ⟨"hpc-2", "hpc", "hpc-2.lab", 3, "96GB", "multi_user_serving", 4⟩,
    ⟨"hpc-3", "hpc", "hpc-3.lab", 1, "48GB", "development_backup", 5⟩ ]

/-- Lookup `next(s for s in self.systems if s.name == name)`: `none` models the
`StopIteration` exception escaping when the name is absent. -/
def findSystem (name : String) : Option SystemConfig :=
  load_system_configs.find? (fun s => s.name = name)

/-- The registry entry for the gateway host. -/
def dgx_spark_system : SystemConfig :=
  ⟨"dgx-spark", "dgx-spark", "dgx-spark.lab", 2, "160GB", "orchestration_gateway", 2⟩

/-- The registry entries for the hpc hosts (used in concrete scenarios). -/
def hpc1_system : SystemConfig := ⟨"hpc-1", "hpc", "hpc-1.lab", 2, "192GB", "primary_inference", 3⟩

def hpc2_system : SystemConfig := ⟨"hpc-2", "hpc", "hpc-2.lab", 3, "96GB", "multi_user_serving", 4⟩

def hpc3_system : SystemConfig := ⟨"hpc-3", "hpc", "hpc-3.lab", 1, "48GB", "development_backup", 5⟩

def mac_system : SystemConfig := ⟨"mac-studio", "mac", "localhost", 0, "0GB", "development_control", 1⟩

/-- Availability prober `UnifiedOrchestrator.check_system_availability`.  Mac: `True` with no
network interaction.  Remote: ping must complete with exit code 0, then the
ssh handshake must complete with exit code 0; every exception is caught by
the `except` clause and yields `False`. -/
def check_system_availability (env : Env) (system : SystemConfig) : Bool :=
  if system.type = "mac" then true
  else
    match env.ping system.host with
    | ProcResult.exn => false
    | ProcResult.ok rc _ =>
      if rc ≠ 0 then false
      else
        match env.ssh_echo system.host with
        | ProcResult.exn => false
        | ProcResult.ok rc2 _ => rc2 = 0

/-- Python's `str` whitespace set (the characters `str.strip()` removes). -/
def pyIsSpace (c : Char) : Bool :=
  c = ' ' ∨ c = '\t' ∨ c = '\n' ∨ c = '\r' ∨ c = '\x0b' ∨ c = '\x0c'

/-- Python `str.strip()` on the character list of a string. -/
def pyStrip (s : List Char) : List Char :=
  ((s.dropWhile pyIsSpace).reverse.dropWhile pyIsSpace).reverse

/-- Python `str.split(sep)` for a one-character separator (here `'\n'`):
split at every occurrence, keeping empty pieces. -/
def pySplitChar (sep : Char) : List Char → List (List Char)
  | [] => [[]]
  | c :: rest =>
    if c = sep then [] :: pySplitChar sep rest
    else
      match pySplitChar sep rest with
      | g :: gs => (c :: g) :: gs
      | [] => [[c]]

/-- Python `str.split(sep)` for a two-character separator (here `", "`):
leftmost non-overlapping occurrences, keeping empty pieces. -/
def pySplit2 (a b : Char) : List Char → List (List Char)
  | [] => [[]]
  | [c] => [[c]]
  | c :: d :: rest =>
    if c = a ∧ d = b then [] :: pySplit2 a b rest
    else
      match pySplit2 a b (d :: rest) with
      | g :: gs => (c :: g) :: gs
      | [] => [[c]]

/-- The numeric value of a nonempty all-digit character list. -/
def pyDigits? (l : List Char) : Option Nat :=
  if l ≠ [] ∧ l.all Char.isDigit then
    some (l.foldl (fun a c => a * 10 + (c.toNat - 48)) 0)
  else none

/-- Python `int(...)` applied to one comma-separated field: optional sign
after surrounding whitespace, then digits only; `none` models `ValueError`.
(The rarely-used digit-group underscores of Python's `int` are not
modelled.) -/
def pyInt? (s : List Char) : Option Int :=
  match pyStrip s with
  | '-' :: ds => (pyDigits? ds).map (fun n => -(n : Int))
  | '+' :: ds => (pyDigits? ds).map (fun n => (n : Int))
  | ds => (pyDigits? ds).map (fun n => (n : Int))

/-- The normalized rational `n / d`.  The library's `Rat` arithmetic is
`@[irreducible]`, so the embedding builds every derived quantity through this
kernel-computable constructor; `ratOfFrac_eq` below proves it is exactly
rational division, and the `rat*_eq` lemmas prove the derived operations are
exactly the library's `+`, `-`, `*`, `/`. -/
def ratOfFrac (n d : Int) : Rat :=
  if d < 0 then mkRat (-n) d.natAbs else mkRat n d.natAbs

/-- Rational addition, computed on raw fractions. -/
def ratAdd (a b : Rat) : Rat :=
  ratOfFrac (a.num * b.den + b.num * a.den) (a.den * b.den)

/-- Rational subtraction, computed on raw fractions. -/
def ratSub (a b : Rat) : Rat :=
  ratOfFrac (a.num * b.den - b.num * a.den) (a.den * b.den)

/-- Rational multiplication, computed on raw fractions. -/
def ratMul (a b : Rat) : Rat :=
  ratOfFrac (a.num * b.num) (a.den * b.den)

/-- Rational (true Python `/`) division, computed on raw fractions. -/
def ratDiv (a b : Rat) : Rat :=
  ratOfFrac (a.num * b.den) (a.den * b.num)

/-- One parsed accelerator line of the telemetry response, with the derived
`memory_percent = (memory_used / memory_total) * 100`. -/
structure GpuStat where
  utilization : Int
  memory_used : Int
  memory_total : Int
  memory_percent : Rat
  deriving Repr, DecidableEq

/-- Exceptions raised inside the telemetry `try` block. -/
inductive PyError where
  | zeroDivision
  | valueError
  deriving Repr, DecidableEq

/-- One line parse, `util, mem_used, mem_total = map(int, line.split(', '))`: exactly three
fields, each a Python integer literal; anything else raises `ValueError`
(from `int` or from unpacking the wrong number of fields). -/
def parseGpuLine (line : List Char) : Option (Int × Int × Int) :=
  match (pySplit2 ',' ' ' line).map pyInt? with
  | [some u, some mu, some mt] => some (u, mu, mt)
  | _ => none

/-- The `for line in lines` loop of `get_system_resources`: skip blank lines,
parse each remaining line, and compute its `memory_percent`; dividing by a
zero `memory_total` raises `ZeroDivisionError`. -/
def parseGpuLines : List (List Char) → Except PyError (List GpuStat)
  | [] => Except.ok []
  | line :: rest =>
    if pyStrip line = [] then parseGpuLines rest
    else
      match parseGpuLine line with
      | none => Except.error PyError.valueError
      | some (u, mu, mt) =>
        if mt = 0 then Except.error PyError.zeroDivision
        else
          match parseGpuLines rest with
          | Except.error e => Except.error e
          | Except.ok tail =>
            Except.ok (⟨u, mu, mt, ratMul (ratDiv (mu : Rat) (mt : Rat)) 100⟩ :: tail)

/-- Result dictionary of `UnifiedOrchestrator.get_system_resources`:
the zeroed Mac dictionary (which has no `"available"` key), the full
statistics dictionary, or `{"available": False}`. -/
inductive Resources where
  | macIdle
  | stats (gpu_count : Nat) (gpus : List GpuStat)
      (avg_utilization : Rat) (avg_memory_percent : Rat)
  | unavailable
  deriving Repr, DecidableEq

/-- Dictionary access `resources.get("available", False)` (truthiness of the entry; the Mac
dictionary lacks the key entirely). -/
def Resources.get_available : Resources → Bool
  | Resources.stats _ _ _ _ => true
  | _ => false

/-- Dictionary access `resources.get("avg_utilization", 100)`. -/
def Resources.get_avg_utilization : Resources → Rat
  | Resources.stats _ _ u _ => u
  | _ => 100

/-- Body of the telemetry `try` block after a successful remote query:
strip and split the stdout, parse the accelerator lines, then build the
statistics dictionary; averaging an empty `gpu_data` raises
`ZeroDivisionError`. -/
def computeSnapshot (stdout : String) : Except PyError Resources :=
  match parseGpuLines (pySplitChar '\n' (pyStrip stdout.data)) with
  | Except.error e => Except.error e
  | Except.ok gpu_data =>
    if gpu_data.length = 0 then Except.error PyError.zeroDivision
    else
      Except.ok (Resources.stats gpu_data.length gpu_data
        (ratDiv (((gpu_data.map (fun g => g.utilization)).foldl (fun a b => a + b) 0 : Int) : Rat)
          (gpu_data.length : Rat))
        (ratDiv ((gpu_data.map (fun g => g.memory_percent)).foldl (fun a b => ratAdd a b) 0)
          (gpu_data.length : Rat)))

/-- Telemetry collector `UnifiedOrchestrator.get_system_resources`.  Mac: the fixed idle
dictionary.  Remote: on exit code 0 the parsed statistics; any exception in
the `try` block (parse error, zero-division) is caught, and every other path
returns `{"available": False}`. -/
def get_system_resources (env : Env) (system : SystemConfig) : Resources :=
  if system.type = "mac" then Resources.macIdle
  else
    match env.nvidia system.host with
    | ProcResult.exn => Resources.unavailable
    | ProcResult.ok rc out =>
      if rc = 0 then
        match computeSnapshot out with
        | Except.ok r => r
        | Except.error _ => Resources.unavailable
      else Resources.unavailable

/-- The static `routing_rules` table of `select_optimal_system`. -/
def routing_rules : List (String × List String) :=
  [ ("development", ["dgx-spark", "hpc-3"]),
    ("testing", ["dgx-spark", "hpc-1"]),
    ("small_inference", ["dgx-spark", "hpc-3"]),
    ("medium_inference", ["dgx-spark", "hpc-1"]),
    ("large_inference", ["hpc-1", "dgx-spark"]),
    ("batch_processing", ["hpc-1", "hpc-2"]),
    ("multi_user", ["hpc-2", "dgx-spark"]),
    ("interactive", ["dgx-spark", "hpc-3"]) ]

/-- The model-size preference list of `select_optimal_system` (the
`preferred_systems` local variable). -/
def preferred_systems (model_size : String) : List String :=
  if model_size = "large" then ["hpc-1"]
  else if model_size = "medium" then ["dgx-spark", "hpc-1"]
  else ["dgx-spark", "hpc-3"]

/-- Candidate list `candidates = routing_rules.get(workload_type, ["dgx-spark"])`. -/
def candidates (workload_type : String) : List String :=
  match routing_rules.lookup workload_type with
  | some l => l
  | none => ["dgx-spark"]

/-- The candidate filtering loop of `select_optimal_system`: look each
candidate name up in the registry (a missing name raises `StopIteration`,
modelled by `.error`), keep the hosts that pass the availability check and
whose telemetry reports `available`, and pair each with its score
`100 - avg_utilization` (the `current_score` attribute patched onto the
host object). -/
def available_systems (env : Env) : List String → Except Unit (List (SystemConfig × Rat))
  | [] => Except.ok []
  | name :: rest =>
    match findSystem name with
    | none => Except.error ()
    | some system =>
      let entry : Option (SystemConfig × Rat) :=
        if check_system_availability env system then
          let resources := get_system_resources env system
          if resources.get_available then
            some (system, ratSub 100 resources.get_avg_utilization)
          else none
        else none
      match available_systems env rest with
      | Except.error e => Except.error e
      | Except.ok tail =>
        Except.ok (match entry with
                   | some p => p :: tail
                   | none => tail)

/-- Python `max(xs, key=...)`: fold that replaces the current maximum only
when the new key is strictly greater, so the first maximal element wins. -/
def py_max {α : Type} (key : α → Rat) : List α → Option α
  | [] => none
  | x :: xs => some (xs.foldl (fun best s => if key best < key s then s else best) x)

/-- Placement selector `UnifiedOrchestrator.select_optimal_system`.  The model-size preference
list is bound exactly as in the source (where it is a dead local variable);
the candidate list comes from the routing table alone.  `none` models an
escaping `StopIteration`. -/
def select_optimal_system (env : Env) (workload_type : String) (model_size : String) :
    Option SystemConfig :=
  let _preferred := preferred_systems model_size
  match available_systems env (candidates workload_type) with
  | Except.error _ => none
  | Except.ok avail =>
    if avail.isEmpty then findSystem "dgx-spark"
    else (py_max (fun p => p.2) avail).map (fun p => p.1)

/-- Values of a deployment config dictionary. -/
inductive ConfigValue where
  | str (s : String)
  | strList (l : List String)
  deriving Repr, DecidableEq

/-- A deployment config dictionary. -/
abbrev Config := List (String × ConfigValue)

/-- The fixed Mac setup command sequence of `deploy_mac_control`. -/
def mac_setup_commands : List String :=
  [ "ai-workbench create-project qwen-image-edit",
    "ai-workbench connect dgx-spark",
    "ai-workbench setup-monitoring" ]

/-- Local dispatch `UnifiedOrchestrator.deploy_mac_control`: run each setup command,
collecting the warnings the source logs for a failed or raising command,
and return `True` unconditionally. -/
def deploy_mac_control (env : Env) (_config : Config) : List String × Bool :=
  (mac_setup_commands.filterMap (fun cmd =>
      match env.local_cmd cmd with
      | ProcResult.exn => some ("Mac setup error: " ++ cmd)
      | ProcResult.ok rc _ =>
        if rc ≠ 0 then some ("Mac setup command failed: " ++ cmd) else none),
   true)

/-- Gateway dispatch `UnifiedOrchestrator.deploy_dgx_spark`: `rsync` with `check=True` (a
non-zero exit raises `CalledProcessError`, caught by the `except`), then the
remote deploy command; success iff the latter exits 0. -/
def deploy_dgx_spark (env : Env) (_config : Config) : Bool :=
  match env.rsync "dgx-spark.lab" with
  | ProcResult.exn => false
  | ProcResult.ok rc _ =>
    if rc ≠ 0 then false
    else
      match env.deploy_ssh "dgx-spark.lab" with
      | ProcResult.exn => false
      | ProcResult.ok rc2 _ => rc2 = 0

/-- Compute-node dispatch `UnifiedOrchestrator.deploy_hpc_system`: same shape as the gateway
deployment, keyed by the target host. -/
def deploy_hpc_system (env : Env) (system : SystemConfig) (_config : Config) : Bool :=
  match env.rsync system.host with
  | ProcResult.exn => false
  | ProcResult.ok rc _ =>
    if rc ≠ 0 then false
    else
      match env.deploy_ssh system.host with
      | ProcResult.exn => false
      | ProcResult.ok rc2 _ => rc2 = 0

/-- Dispatcher `UnifiedOrchestrator.deploy_to_system`: dispatch on the host kind
string. -/
def deploy_to_system (env : Env) (system : SystemConfig) (cfg : Config) : Bool :=
  if system.type = "mac" then (deploy_mac_control env cfg).2
  else if system.type = "dgx-spark" then deploy_dgx_spark env cfg
  else deploy_hpc_system env system cfg

/-- One entry of the dashboard config. -/
structure DashboardEntry where
  name : String
  host : String
  type : String
  api_endpoint : String
  ui_endpoint : String
  deriving Repr, DecidableEq

/-- The `enumerate(self.systems[1:], 1)` comprehension of
`create_unified_dashboard`. -/
def dashboard_entries : List SystemConfig → Nat → List DashboardEntry
  | [], _ => []
  | s :: rest, i =>
    ⟨s.name, s.host, s.type,
      "http://" ++ s.host ++ ":800" ++ toString i,
      "http://" ++ s.host ++ ":300" ++ toString i⟩ :: dashboard_entries rest (i + 1)

/-- Dashboard builder `UnifiedOrchestrator.create_unified_dashboard` (the returned config; the
file write is a side effect outside the data model). -/
def create_unified_dashboard : List DashboardEntry :=
  dashboard_entries (load_system_configs.drop 1) 1

/-- Values stored in the `deployment_results` dictionary. -/
inductive ResultValue where
  | flag (b : Bool)
  | dashboard (d : List DashboardEntry)
  deriving Repr, DecidableEq

/-- Python dict assignment `d[k] = v` on an insertion-ordered dictionary:
update in place when the key exists, append otherwise. -/
def dictSet (d : List (String × ResultValue)) (k : String) (v : ResultValue) :
    List (String × ResultValue) :=
  if d.any (fun p => p.1 = k) then
    d.map (fun p => if p.1 = k then (k, v) else p)
  else d ++ [(k, v)]

/-- The per-workload loop of `orchestrate_full_deployment`: select a host
(with the default `model_size="medium"`), deploy, and record the boolean
under the key `f"{workload}_{system.name}"`. -/
def deploy_workloads (env : Env) :
    List String → List (String × ResultValue) → Option (List (String × ResultValue))
  | [], acc => some acc
  | w :: rest, acc =>
    match select_optimal_system env w "medium" with
    | none => none
    | some sys =>
      deploy_workloads env rest
        (dictSet acc (w ++ "_" ++ sys.name)
          (ResultValue.flag (deploy_to_system env sys
            [("workload_type", ConfigValue.str w), ("system_role", ConfigValue.str sys.role)])))

/-- Fleet driver `UnifiedOrchestrator.orchestrate_full_deployment`: Mac control first,
then one selection + deployment per workload, then the dashboard entry. -/
def orchestrate_full_deployment (env : Env) (workload_types : List String) :
    Option (List (String × ResultValue)) :=
  match load_system_configs.find? (fun s => s.type = "mac") with
  | none => none
  | some mac =>
    match deploy_workloads env workload_types
        (dictSet [] "mac" (ResultValue.flag (deploy_to_system env mac []))) with
    | none => none
    | some res =>
      some (dictSet res "dashboard" (ResultValue.dashboard create_unified_dashboard))

/-- The key under which a workload's deployment outcome is recorded, when
selection succeeds. -/
def resolvedKey (env : Env) (w : String) : Option String :=
  (select_optimal_system env w "medium").map (fun s => w ++ "_" ++ s.name)

/-- Parsed command-line arguments of `main`. -/
structure Args where
  workloads : List String
  target_system : String
  monitor_only : Bool
  deriving Repr, DecidableEq

/-- What `main` computes and prints on each of its three paths. -/
inductive MainOutput where
  | dashboard (d : List DashboardEntry)
  | fleet (r : List (String × ResultValue))
  | single (b : Bool)
  deriving Repr, DecidableEq

/-- Driver `main` up to its terminal `print`: the monitor-only path, the `auto`
orchestration path, or deployment to one named host.  `none` models an
uncaught exception escaping `main`. -/
def main_run (env : Env) (args : Args) : Option MainOutput :=
  if args.monitor_only then some (MainOutput.dashboard create_unified_dashboard)
  else if args.target_system = "auto" then
    (orchestrate_full_deployment env args.workloads).map MainOutput.fleet
  else
    (findSystem args.target_system).map
      (fun t => MainOutput.single
        (deploy_to_system env t [("workloads", ConfigValue.strList args.workloads)]))

/-- The process exit status of the script: `main` never calls `sys.exit`, so
a normal return exits 0; an uncaught exception makes CPython exit 1. -/
def main_exit_code (env : Env) (args : Args) : Nat :=
  match main_run env args with
  | some _ => 0
  | none => 1

instance {e a : Type} [DecidableEq e] [DecidableEq a] : DecidableEq (Except e a) := fun x y =>
  match x, y with
  | Except.ok u, Except.ok v =>
    if h : u = v then Decidable.isTrue (by rw [h]) else Decidable.isFalse (by simp [h])
  | Except.error u, Except.error v =>
    if h : u = v then Decidable.isTrue (by rw [h]) else Decidable.isFalse (by simp [h])
  | Except.ok _, Except.error _ => Decidable.isFalse (by simp)
  | Except.error _, Except.ok _ => Decidable.isFalse (by simp)

/-- Modelled from the spec (§4.4 step 2), for comparison with the code's
`candidates`: iterate the workload-type candidates in declared order, keep
those also present in the model-size preference list, and fall back to the
full workload-type list when the intersection is empty.  The source computes
`preferred_systems` but never applies this (or any) combination step. -/
def candidates_per_spec (workload_type model_size : String) : List String :=
  let base := candidates workload_type
  let inter := base.filter (fun n => (preferred_systems model_size).contains n)
  if inter.isEmpty then base else inter

/-- Test world: every host reachable, every accelerator at 50% utilization,
every deployment command succeeding. -/
def env_all_up : Env :=
  { ping := fun _ => ProcResult.ok 0 "",
    ssh_echo := fun _ => ProcResult.ok 0 "ok",
    nvidia := fun _ => ProcResult.ok 0 "50, 10, 100",
    rsync := fun _ => ProcResult.ok 0 "",
    deploy_ssh := fun _ => ProcResult.ok 0 "",
    local_cmd := fun _ => ProcResult.ok 0 "" }

/-- Test world: every remote interaction raises (hosts unreachable, local
commands failing). -/
def env_all_down : Env :=
  { ping := fun _ => ProcResult.exn,
    ssh_echo := fun _ => ProcResult.exn,
    nvidia := fun _ => ProcResult.exn,
    rsync := fun _ => ProcResult.exn,
    deploy_ssh := fun _ => ProcResult.exn,
    local_cmd := fun _ => ProcResult.exn }

/-- Test world: like `env_all_up` except that hpc-1 does not answer ping. -/
def env_hpc1_down : Env :=
  { env_all_up with
    ping := fun h => if h = "hpc-1.lab" then ProcResult.exn else ProcResult.ok 0 "" }

/-- Test world: like `env_all_up` except that every remote deploy command
exits 1 with an error message (selection inputs are identical to
`env_all_up`). -/
def env_deploy_fail : Env :=
  { env_all_up with deploy_ssh := fun _ => ProcResult.ok 1 "deploy failed" }

/-- Test world: like `env_all_up` except that telemetry reports zero
accelerator lines (blank stdout). -/
def env_no_gpus : Env :=
  { env_all_up with nvidia := fun _ => ProcResult.ok 0 "\n   \n" }

theorem ratOfFrac_eq (n d : Int) : ratOfFrac n d = (n : Rat) / (d : Rat) := by
  rw [← Rat.divInt_eq_div]
  unfold ratOfFrac
  rcases d with m | m
  · have hnl : ¬((Int.ofNat m) < 0) := by
      simp [Int.ofNat_eq_coe]
    simp [hnl, Rat.divInt, Int.natAbs_ofNat]
  · have hl : (Int.negSucc m) < 0 := Int.negSucc_lt_zero m
    simp [hl, Rat.divInt, Int.natAbs_negSucc, mkRat, Nat.succ_ne_zero]

theorem ratAdd_eq (a b : Rat) : ratAdd a b = a + b := by
  have ha : ((a.den : Rat)) ≠ 0 := by
    exact_mod_cast a.den_nz
  have hb : ((b.den : Rat)) ≠ 0 := by
    exact_mod_cast b.den_nz
  rw [ratAdd, ratOfFrac_eq]
  conv_rhs => rw [← Rat.num_div_den a, ← Rat.num_div_den b]
  push_cast
  rw [div_add_div _ _ ha hb]
  ring_nf

theorem ratSub_eq (a b : Rat) : ratSub a b = a - b := by
  have ha : ((a.den : Rat)) ≠ 0 := by exact_mod_cast a.den_nz
  have hb : ((b.den : Rat)) ≠ 0 := by exact_mod_cast b.den_nz
  rw [ratSub, ratOfFrac_eq]
  conv_rhs => rw [← Rat.num_div_den a, ← Rat.num_div_den b]
  push_cast
  rw [div_sub_div _ _ ha hb]
  ring_nf

theorem ratMul_eq (a b : Rat) : ratMul a b = a * b := by
  rw [ratMul, ratOfFrac_eq]
  conv_rhs => rw [← Rat.num_div_den a, ← Rat.num_div_den b]
  push_cast
  rw [div_mul_div_comm]

theorem ratDiv_eq (a b : Rat) : ratDiv a b = a / b := by
  rcases eq_or_ne b 0 with rfl | hb0
  · simp [ratDiv, ratOfFrac_eq]
  · have ha : ((a.den : Rat)) ≠ 0 := by exact_mod_cast a.den_nz
    have hb : ((b.den : Rat)) ≠ 0 := by exact_mod_cast b.den_nz
    have hbn : ((b.num : Rat)) ≠ 0 := by
      exact_mod_cast Rat.num_ne_zero.2 hb0
    rw [ratDiv, ratOfFrac_eq]
    conv_rhs => rw [← Rat.num_div_den a, ← Rat.num_div_den b]
    push_cast
    rw [div_div_div_eq, mul_comm (a.num : Rat) (b.den : Rat)]

theorem foldl_first_max {α : Type} (key : α → Rat) (xs : List α) (x : α) :
    ∃ l1 l2,
      x :: xs = l1 ++ (xs.foldl (fun best s => if key best < key s then s else best) x) :: l2 ∧
      (∀ q ∈ l1, key q < key (xs.foldl (fun best s => if key best < key s then s else best) x)) ∧
      (∀ q ∈ x :: xs, key q ≤ key (xs.foldl (fun best s => if key best < key s then s else best) x)) := by
  induction xs generalizing x with
  | nil =>
    refine ⟨[], [], rfl, by simp, ?_⟩
    intro q hq
    simp at hq
    simp [hq]
  | cons s rest ih =>
    by_cases h : key x < key s
    · have hstep : (s :: rest).foldl (fun best s => if key best < key s then s else best) x
          = rest.foldl (fun best s => if key best < key s then s else best) s := by
        simp [List.foldl_cons, h]
      obtain ⟨l1, l2, hdec, hlt, hle⟩ := ih s
      rw [hstep]
      refine ⟨x :: l1, l2, ?_, ?_, ?_⟩
      · rw [List.cons_append, ← hdec]
      · intro q hq
        rcases List.mem_cons.1 hq with rfl | hq2
        · exact lt_of_lt_of_le h (hle s (List.mem_cons_self _ _))
        · exact hlt q hq2
      · intro q hq
        rcases List.mem_cons.1 hq with rfl | hq2
        · exact le_of_lt (lt_of_lt_of_le h (hle s (List.mem_cons_self _ _)))
        · exact hle q hq2
    · have hstep : (s :: rest).foldl (fun best s => if key best < key s then s else best) x
          = rest.foldl (fun best s => if key best < key s then s else best) x := by
        simp [List.foldl_cons, h]
      obtain ⟨l1, l2, hdec, hlt, hle⟩ := ih x
      rw [hstep]
      cases l1 with
      | nil =>
        simp only [List.nil_append] at hdec
        have hx : x = rest.foldl (fun best s => if key best < key s then s else best) x :=
          (List.cons.inj hdec).1
        have hl2 : rest = l2 := (List.cons.inj hdec).2
        refine ⟨[], s :: l2, ?_, by simp, ?_⟩
        · rw [List.nil_append, ← hx, hl2]
        · intro q hq
          rcases List.mem_cons.1 hq with rfl | hq2
          · rw [← hx]
          · rcases List.mem_cons.1 hq2 with rfl | hq3
            · rw [← hx]; exact le_of_not_lt h
            · exact hle q (List.mem_cons_of_mem _ hq3)
      | cons y l1x =>
        have hxy : x = y := (List.cons.inj hdec).1
        have hrest : rest
            = l1x ++ (rest.foldl (fun best s => if key best < key s then s else best) x) :: l2 :=
          (List.cons.inj hdec).2
        have hxlt : key x < key (rest.foldl (fun best s => if key best < key s then s else best) x) := by
          have hy := hlt y (List.mem_cons_self _ _)
          rw [← hxy] at hy
          exact hy
        refine ⟨x :: s :: l1x, l2, ?_, ?_, ?_⟩
        · rw [List.cons_append, List.cons_append, ← hrest]
        · intro q hq
          rcases List.mem_cons.1 hq with rfl | hq2
          · exact hxlt
          · rcases List.mem_cons.1 hq2 with rfl | hq3
            · exact lt_of_le_of_lt (le_of_not_lt h) hxlt
            · exact hlt q (List.mem_cons_of_mem _ hq3)
        · intro q hq
          rcases List.mem_cons.1 hq with rfl | hq2
          · exact le_of_lt hxlt
          · rcases List.mem_cons.1 hq2 with rfl | hq3
            · exact le_of_lt (lt_of_le_of_lt (le_of_not_lt h) hxlt)
            · exact hle q (List.mem_cons_of_mem _ hq3)

theorem py_max_first_max {α : Type} (key : α → Rat) (l : List α) (hne : l ≠ []) :
    ∃ l1 p l2, l = l1 ++ p :: l2 ∧ py_max key l = some p ∧
      (∀ q ∈ l1, key q < key p) ∧ (∀ q ∈ l, key q ≤ key p) := by
  match l, hne with
  | x :: xs, _ =>
    obtain ⟨l1, l2, hdec, hlt, hle⟩ := foldl_first_max key xs x
    exact ⟨l1, _, l2, hdec, rfl, hlt, hle⟩

theorem check_system_availability_congr (env1 env2 : Env)
    (hp : ∀ h, env1.ping h = env2.ping h) (hs : ∀ h, env1.ssh_echo h = env2.ssh_echo h)
    (s : SystemConfig) :
    check_system_availability env1 s = check_system_availability env2 s := by
  unfold check_system_availability
  rw [hp s.host, hs s.host]

theorem get_system_resources_congr (env1 env2 : Env)
    (hn : ∀ h, env1.nvidia h = env2.nvidia h) (s : SystemConfig) :
    get_system_resources env1 s = get_system_resources env2 s := by
  unfold get_system_resources
  rw [hn s.host]

theorem available_systems_congr (env1 env2 : Env)
    (hp : ∀ h, env1.ping h = env2.ping h) (hs : ∀ h, env1.ssh_echo h = env2.ssh_echo h)
    (hn : ∀ h, env1.nvidia h = env2.nvidia h) :
    ∀ cs, available_systems env1 cs = available_systems env2 cs := by
  intro cs
  induction cs with
  | nil => rfl
  | cons name rest ih =>
    cases hfs : findSystem name with
    | none => simp [available_systems, hfs]
    | some system =>
      simp only [available_systems, hfs]
      rw [check_system_availability_congr env1 env2 hp hs system,
          get_system_resources_congr env1 env2 hn system, ih]

theorem select_optimal_system_congr (env1 env2 : Env)
    (hp : ∀ h, env1.ping h = env2.ping h) (hs : ∀ h, env1.ssh_echo h = env2.ssh_echo h)
    (hn : ∀ h, env1.nvidia h = env2.nvidia h) (w m : String) :
    select_optimal_system env1 w m = select_optimal_system env2 w m := by
  unfold select_optimal_system
  rw [available_systems_congr env1 env2 hp hs hn (candidates w)]

theorem dictSet_keys (d : List (String × ResultValue)) (k : String) (v : ResultValue) :
    (dictSet d k v).map Prod.fst =
      if d.any (fun p => p.1 = k) then d.map Prod.fst else d.map Prod.fst ++ [k] := by
  unfold dictSet
  split
  · rw [List.map_map]
    apply List.map_congr_left
    intro p _
    by_cases hpk : p.1 = k <;> simp [hpk]
  · rw [List.map_append]
    rfl

theorem dictSet_keys_nodup (d : List (String × ResultValue)) (k : String) (v : ResultValue)
    (h : (d.map Prod.fst).Nodup) : ((dictSet d k v).map Prod.fst).Nodup := by
  rw [dictSet_keys]
  split
  · exact h
  · next hany =>
    have hk : k ∉ d.map Prod.fst := by
      intro hmem
      obtain ⟨p, hp, hpk⟩ := List.mem_map.1 hmem
      exact hany (List.any_eq_true.2 ⟨p, hp, by simp [hpk]⟩)
    refine List.Nodup.append h (List.nodup_singleton k) ?_
    intro a ha hb
    rw [List.mem_singleton] at hb
    subst hb
    exact hk ha

theorem mem_dictSet_self (d : List (String × ResultValue)) (k : String) (v : ResultValue) :
    (k, v) ∈ dictSet d k v := by
  unfold dictSet
  split
  · next h =>
    obtain ⟨p, hp, hpk⟩ := List.any_eq_true.1 h
    have hpk2 : p.1 = k := of_decide_eq_true hpk
    have himg : (fun p => if p.1 = k then (k, v) else p) p = (k, v) := by simp [hpk2]
    exact List.mem_map.2 ⟨p, hp, himg⟩
  · exact List.mem_append_right _ (by simp)

theorem mem_dictSet_of_ne (d : List (String × ResultValue)) (k2 : String) (v2 : ResultValue)
    (k : String) (v : ResultValue) (h : (k, v) ∈ d) (hne : k ≠ k2) :
    (k, v) ∈ dictSet d k2 v2 := by
  unfold dictSet
  split
  · have himg : (fun p => if p.1 = k2 then (k2, v2) else p) (k, v) = (k, v) := by simp [hne]
    exact himg ▸ List.mem_map_of_mem _ h
  · exact List.mem_append_left _ h

theorem mem_dictSet_flag (d : List (String × ResultValue)) (k : String) (v : Bool)
    (k0 : String) (b0 : Bool) (h : (k0, ResultValue.flag b0) ∈ d) :
    ∃ b1, (k0, ResultValue.flag b1) ∈ dictSet d k (ResultValue.flag v) := by
  by_cases hk : k0 = k
  · subst hk
    have hany : d.any (fun p => p.1 = k0) = true :=
      List.any_eq_true.2 ⟨(k0, ResultValue.flag b0), h, by simp⟩
    refine ⟨v, ?_⟩
    unfold dictSet
    rw [if_pos hany]
    have himg : (fun p => if p.1 = k0 then (k0, ResultValue.flag v) else p)
        (k0, ResultValue.flag b0) = (k0, ResultValue.flag v) := by simp
    exact List.mem_map.2 ⟨(k0, ResultValue.flag b0), h, himg⟩
  · exact ⟨b0, mem_dictSet_of_ne d k _ k0 _ h hk⟩

theorem dictSet_head (d : List (String × ResultValue)) (k : String) (v : ResultValue)
    (p : String × ResultValue) (hh : d.head? = some p) (hne : p.1 ≠ k) :
    (dictSet d k v).head? = some p := by
  unfold dictSet
  cases d with
  | nil => simp at hh
  | cons q t =>
    have hq : q = p := by simpa using hh
    subst hq
    split
    · simp only [List.map_cons, List.head?_cons]
      rw [if_neg hne]
    · simp [List.cons_append]

theorem underscore_mem_key (a b : String) : '_' ∈ (a ++ "_" ++ b).data := by
  rw [String.data_append, String.data_append]
  simp [String.data]

theorem key_ne_of_no_underscore (a b c : String) (hc : '_' ∉ c.data) : a ++ "_" ++ b ≠ c := by
  intro h
  apply hc
  rw [← h]
  exact underscore_mem_key a b

theorem any_fst_eq (d : List (String × ResultValue)) (k : String) :
    d.any (fun p => p.1 = k) = (d.map Prod.fst).any (fun x => x = k) := by
  induction d with
  | nil => rfl
  | cons p t ih => simp [List.any_cons, ih]

theorem deploy_workloads_flag_mem (env : Env) :
    ∀ (ws : List String) (acc res : List (String × ResultValue)),
      deploy_workloads env ws acc = some res →
      ∀ k b, (k, ResultValue.flag b) ∈ acc → ∃ b1, (k, ResultValue.flag b1) ∈ res := by
  intro ws
  induction ws with
  | nil =>
    intro acc res h k b hm
    simp only [deploy_workloads, Option.some.injEq] at h
    subst h
    exact ⟨b, hm⟩
  | cons w rest ih =>
    intro acc res h k b hm
    simp only [deploy_workloads] at h
    cases hsel : select_optimal_system env w "medium" with
    | none => rw [hsel] at h; exact absurd h (by simp)
    | some sys =>
      rw [hsel] at h
      obtain ⟨b1, hb1⟩ := mem_dictSet_flag acc (w ++ "_" ++ sys.name)
        (deploy_to_system env sys
          [("workload_type", ConfigValue.str w), ("system_role", ConfigValue.str sys.role)])
        k b hm
      exact ih _ res h k b1 hb1

theorem deploy_workloads_inserts (env : Env) :
    ∀ (ws : List String) (acc res : List (String × ResultValue)),
      deploy_workloads env ws acc = some res →
      ∀ w ∈ ws, ∃ k b, resolvedKey env w = some k ∧ (k, ResultValue.flag b) ∈ res := by
  intro ws
  induction ws with
  | nil => intro acc res _ w hw; simp at hw
  | cons w0 rest ih =>
    intro acc res h w hw
    simp only [deploy_workloads] at h
    cases hsel : select_optimal_system env w0 "medium" with
    | none => rw [hsel] at h; exact absurd h (by simp)
    | some sys =>
      rw [hsel] at h
      rcases List.mem_cons.1 hw with rfl | hw2
      · refine ⟨w ++ "_" ++ sys.name, ?_⟩
        have hk : resolvedKey env w = some (w ++ "_" ++ sys.name) := by
          unfold resolvedKey
          rw [hsel]
          rfl
        obtain ⟨b1, hb1⟩ := deploy_workloads_flag_mem env rest _ res h (w ++ "_" ++ sys.name)
          (deploy_to_system env sys
            [("workload_type", ConfigValue.str w), ("system_role", ConfigValue.str sys.role)])
          (mem_dictSet_self acc _ _)
        exact ⟨b1, hk, hb1⟩
      · exact ih _ res h w hw2

theorem deploy_workloads_nodup (env : Env) :
    ∀ (ws : List String) (acc res : List (String × ResultValue)),
      deploy_workloads env ws acc = some res →
      (acc.map Prod.fst).Nodup → (res.map Prod.fst).Nodup := by
  intro ws
  induction ws with
  | nil =>
    intro acc res h hacc
    simp only [deploy_workloads, Option.some.injEq] at h
    subst h
    exact hacc
  | cons w rest ih =>
    intro acc res h hacc
    simp only [deploy_workloads] at h
    cases hsel : select_optimal_system env w "medium" with
    | none => rw [hsel] at h; exact absurd h (by simp)
    | some sys =>
      rw [hsel] at h
      exact ih _ res h (dictSet_keys_nodup acc _ _ hacc)

theorem deploy_workloads_keys_congr (env1 env2 : Env)
    (hp : ∀ h, env1.ping h = env2.ping h) (hs : ∀ h, env1.ssh_echo h = env2.ssh_echo h)
    (hn : ∀ h, env1.nvidia h = env2.nvidia h) :
    ∀ (ws : List String) (acc1 acc2 res1 res2 : List (String × ResultValue)),
      acc1.map Prod.fst = acc2.map Prod.fst →
      deploy_workloads env1 ws acc1 = some res1 →
      deploy_workloads env2 ws acc2 = some res2 →
      res1.map Prod.fst = res2.map Prod.fst := by
  intro ws
  induction ws with
  | nil =>
    intro acc1 acc2 res1 res2 hacc h1 h2
    simp only [deploy_workloads, Option.some.injEq] at h1 h2
    subst h1
    subst h2
    exact hacc
  | cons w rest ih =>
    intro acc1 acc2 res1 res2 hacc h1 h2
    simp only [deploy_workloads] at h1 h2
    cases hsel : select_optimal_system env1 w "medium" with
    | none =>
      rw [hsel] at h1
      exact absurd h1 (by simp)
    | some sys =>
      have hsel2 : select_optimal_system env2 w "medium" = some sys := by
        rw [← select_optimal_system_congr env1 env2 hp hs hn w "medium"]
        exact hsel
      rw [hsel] at h1
      rw [hsel2] at h2
      refine ih _ _ res1 res2 ?_ h1 h2
      rw [dictSet_keys, dictSet_keys, any_fst_eq, any_fst_eq, hacc]

theorem deploy_workloads_head (env : Env) :
    ∀ (ws : List String) (acc res : List (String × ResultValue)),
      deploy_workloads env ws acc = some res →
      acc.head? = some ("mac", ResultValue.flag true) →
      res.head? = some ("mac", ResultValue.flag true) := by
  intro ws
  induction ws with
  | nil =>
    intro acc res h hh
    simp only [deploy_workloads, Option.some.injEq] at h
    subst h
    exact hh
  | cons w rest ih =>
    intro acc res h hh
    simp only [deploy_workloads] at h
    cases hsel : select_optimal_system env w "medium" with
    | none => rw [hsel] at h; exact absurd h (by simp)
    | some sys =>
      rw [hsel] at h
      refine ih _ res h ?_
      exact dictSet_head acc _ _ _ hh
        (Ne.symm (key_ne_of_no_underscore w sys.name "mac" (by decide)))

/-- Claim C7: `selectHost` is deterministic — two calls with identical
registry contents and identical availability/telemetry responses (ping, ssh
handshake and nvidia-smi answers agree on every host) return the same
host. -/
theorem claim_C7_selection_deterministic (env1 env2 : Env)
    (hp : ∀ h, env1.ping h = env2.ping h) (hs : ∀ h, env1.ssh_echo h = env2.ssh_echo h)
    (hn : ∀ h, env1.nvidia h = env2.nvidia h) (w m : String) :
    select_optimal_system env1 w m = select_optimal_system env2 w m :=
  select_optimal_system_congr env1 env2 hp hs hn w m

theorem claim_C7_witness :
    select_optimal_system env_all_up "development" "medium"
      = select_optimal_system env_deploy_fail "development" "medium" :=
  claim_C7_selection_deterministic env_all_up env_deploy_fail
    (fun _ => rfl) (fun _ => rfl) (fun _ => rfl) "development" "medium"

/-- Claim C2 (amended): among the surviving candidates, the code returns the
FIRST host (in filtered candidate order) attaining the maximal score
`100 - avg_utilization`; ties are broken by position, and the declared
`priority` field is never consulted. -/
theorem claim_C2_first_of_maximal_score (env : Env) (w m : String)
    (avail : List (SystemConfig × Rat))
    (h : available_systems env (candidates w) = Except.ok avail) (hne : avail ≠ []) :
    ∃ l1 p l2, avail = l1 ++ p :: l2 ∧
      select_optimal_system env w m = some p.1 ∧
      (∀ q ∈ l1, q.2 < p.2) ∧ (∀ q ∈ avail, q.2 ≤ p.2) := by
  obtain ⟨l1, p, l2, hdec, hmax, hlt, hle⟩ := py_max_first_max (fun q => q.2) avail hne
  refine ⟨l1, p, l2, hdec, ?_, hlt, hle⟩
  unfold select_optimal_system
  rw [h]
  cases avail with
  | nil => exact absurd rfl hne
  | cons a t =>
    simp only [List.isEmpty_cons, Bool.false_eq_true, if_false]
    rw [hmax]
    rfl

theorem claim_C2_witness :
    ∃ l1 p l2,
      ([(dgx_spark_system, (50 : Rat)), (hpc3_system, (50 : Rat))] : List (SystemConfig × Rat))
        = l1 ++ p :: l2 ∧
      select_optimal_system env_all_up "development" "medium" = some p.1 ∧
      (∀ q ∈ l1, q.2 < p.2) ∧
      (∀ q ∈ ([(dgx_spark_system, (50 : Rat)), (hpc3_system, (50 : Rat))] :
          List (SystemConfig × Rat)), q.2 ≤ p.2) :=
  claim_C2_first_of_maximal_score env_all_up "development" "medium"
    [(dgx_spark_system, 50), (hpc3_system, 50)] (by decide) (by decide)

/-- Claim C2 counterexample: for workload `large_inference` in a world where
hpc-1 and dgx-spark both survive with the same score 50, dgx-spark has the
strictly lower declared priority (2 < 3), yet the code returns hpc-1 — the
claimed lowest-priority tie-break does not hold. -/
theorem claim_C2_counterexample :
    available_systems env_all_up (candidates "large_inference")
      = Except.ok [(hpc1_system, 50), (dgx_spark_system, 50)] ∧
    dgx_spark_system.priority < hpc1_system.priority ∧
    select_optimal_system env_all_up "large_inference" "medium" = some hpc1_system ∧
    hpc1_system ≠ dgx_spark_system :=
  ⟨by decide, by decide, by decide, by decide⟩

/-- Claim C3 (amended): when no candidate survives filtering, selection
returns the gateway registry entry `dgx-spark` without raising, regardless
of dgx-spark's own availability. -/
theorem claim_C3_gateway_fallback (env : Env) (w m : String)
    (h : available_systems env (candidates w) = Except.ok []) :
    select_optimal_system env w m = some dgx_spark_system := by
  unfold select_optimal_system
  rw [h]
  rfl

theorem claim_C3_witness :
    select_optimal_system env_all_down "interactive" "small" = some dgx_spark_system :=
  claim_C3_gateway_fallback env_all_down "interactive" "small" (by decide)

/-- Claim C3 counterexample: the degraded fallback decision (every candidate
of `interactive` unreachable) is the very same value as a confident
selection of dgx-spark — nothing in the returned decision marks it
degraded, so downstream reporting cannot distinguish the two. -/
theorem claim_C3_counterexample :
    available_systems env_all_down (candidates "interactive") = Except.ok [] ∧
    available_systems env_all_up (candidates "interactive")
      = Except.ok [(dgx_spark_system, 50), (hpc3_system, 50)] ∧
    select_optimal_system env_all_down "interactive" "medium" = some dgx_spark_system ∧
    select_optimal_system env_all_down "interactive" "medium"
      = select_optimal_system env_all_up "interactive" "medium" :=
  ⟨by decide, by decide, by decide, by decide⟩

theorem parse_blank_lines (ls : List (List Char)) (h : ∀ l ∈ ls, pyStrip l = []) :
    parseGpuLines ls = Except.ok [] := by
  induction ls with
  | nil => rfl
  | cons l t ih =>
    have hl : pyStrip l = [] := h l (List.mem_cons_self _ _)
    unfold parseGpuLines
    rw [if_pos hl]
    exact ih (fun x hx => h x (List.mem_cons_of_mem _ hx))

/-- Claim C4: a remote host whose telemetry query succeeds (exit 0) but
reports zero accelerator lines never propagates a division-by-zero (the
`ZeroDivisionError` raised when averaging the empty list is caught), and
the resulting snapshot is `{"available": False}` with no partial
per-accelerator data. -/
theorem claim_C4_zero_accelerators_safe (env : Env) (s : SystemConfig) (out : String)
    (hmac : s.type ≠ "mac") (hq : env.nvidia s.host = ProcResult.ok 0 out)
    (hblank : ∀ l ∈ pySplitChar '\n' (pyStrip out.data), pyStrip l = []) :
    get_system_resources env s = Resources.unavailable := by
  unfold get_system_resources
  rw [if_neg hmac, hq]
  have hcs : computeSnapshot out = Except.error PyError.zeroDivision := by
    unfold computeSnapshot
    rw [parse_blank_lines _ hblank]
    rfl
  simp [hcs]

theorem claim_C4_witness :
    get_system_resources env_no_gpus hpc1_system = Resources.unavailable :=
  claim_C4_zero_accelerators_safe env_no_gpus hpc1_system "\n   \n"
    (by decide) rfl (by decide)

/-- Claim C5 (amended): whenever `main` returns normally (no uncaught
exception), the process exit status is 0 — there is no `sys.exit`, so
deployment failures never make the exit status non-zero. -/
theorem claim_C5_exit_code_always_zero (env : Env) (args : Args) (o : MainOutput)
    (h : main_run env args = some o) : main_exit_code env args = 0 := by
  unfold main_exit_code
  rw [h]

theorem claim_C5_witness :
    main_exit_code env_deploy_fail ⟨["development"], "auto", false⟩ = 0 :=
  claim_C5_exit_code_always_zero env_deploy_fail ⟨["development"], "auto", false⟩
    (MainOutput.fleet
      [("mac", ResultValue.flag true),
       ("development_dgx-spark", ResultValue.flag false),
       ("dashboard", ResultValue.dashboard create_unified_dashboard)])
    (by decide)

/-- Claim C5 counterexample: a run in which the requested deployment fails
(the remote deploy command exits 1, recorded as `flag false`) still exits
with status 0, contradicting "non-zero when any requested deployment
failed". -/
theorem claim_C5_counterexample :
    main_run env_deploy_fail ⟨["development"], "auto", false⟩
      = some (MainOutput.fleet
          [("mac", ResultValue.flag true),
           ("development_dgx-spark", ResultValue.flag false),
           ("dashboard", ResultValue.dashboard create_unified_dashboard)]) ∧
    ("development_dgx-spark", ResultValue.flag false) ∈
      [("mac", ResultValue.flag true),
       ("development_dgx-spark", ResultValue.flag false),
       ("dashboard", ResultValue.dashboard create_unified_dashboard)] ∧
    main_exit_code env_deploy_fail ⟨["development"], "auto", false⟩ = 0 :=
  ⟨by decide, by decide, by decide⟩

/-- Claim C8: availability checking is total and advisory.  For the
local-control kind it is `true` for every environment (no network
behaviour can change it); for every remote host it is `true` exactly when
both probe stages complete with exit code 0 — any exception, timeout or
failed stage yields `false` instead of a propagated error. -/
theorem claim_C8_availability_total_advisory (env : Env) (s : SystemConfig) :
    (s.type = "mac" → check_system_availability env s = true) ∧
    (s.type ≠ "mac" →
      (check_system_availability env s = true ↔
        (∃ out, env.ping s.host = ProcResult.ok 0 out) ∧
        (∃ out, env.ssh_echo s.host = ProcResult.ok 0 out))) := by
  constructor
  · intro h
    unfold check_system_availability
    rw [if_pos h]
  · intro h
    unfold check_system_availability
    rw [if_neg h]
    cases hp : env.ping s.host with
    | exn => simp [hp]
    | ok rc out =>
      by_cases hrc : rc = 0
      · subst hrc
        cases hs : env.ssh_echo s.host with
        | exn => simp [hs]
        | ok rc2 out2 =>
          by_cases hrc2 : rc2 = 0
          · subst hrc2
            simp [hs]
          · simp [hs, hrc2]
      · simp [hrc]

theorem claim_C8_witness :
    check_system_availability env_all_down mac_system = true :=
  (claim_C8_availability_total_advisory env_all_down mac_system).1 rfl

/-- Claim C9: deployment to the local-control host always reports success —
`deploy_mac_control` returns `True` for every environment and config (even
when every setup command fails or raises), and consequently the `"mac"`
entry of a fleet run's result map is always `flag true`. -/
theorem claim_C9_local_control_always_succeeds :
    (∀ (env : Env) (cfg : Config), (deploy_mac_control env cfg).2 = true) ∧
    (∀ (env : Env) (ws : List String) (res : List (String × ResultValue)),
      orchestrate_full_deployment env ws = some res →
      res.head? = some ("mac", ResultValue.flag true)) := by
  constructor
  · intro env cfg
    rfl
  · intro env ws res h
    simp only [orchestrate_full_deployment] at h
    have hfind : load_system_configs.find? (fun s => s.type = "mac") = some mac_system := by
      decide
    rw [hfind] at h
    dsimp only at h
    have h0 : dictSet [] "mac" (ResultValue.flag (deploy_to_system env mac_system []))
        = [("mac", ResultValue.flag true)] := by
      rfl
    rw [h0] at h
    cases hdw : deploy_workloads env ws [("mac", ResultValue.flag true)] with
    | none => rw [hdw] at h; exact absurd h (by simp)
    | some res0 =>
      rw [hdw] at h
      simp only [Option.some.injEq] at h
      subst h
      have hh := deploy_workloads_head env ws _ res0 hdw (by rfl)
      exact dictSet_head res0 "dashboard" _ _ hh (by decide)

theorem claim_C9_witness :
    (deploy_mac_control env_all_down []).2 = true ∧
    ([("mac", ResultValue.flag true),
      ("dashboard", ResultValue.dashboard create_unified_dashboard)] :
        List (String × ResultValue)).head? = some ("mac", ResultValue.flag true) :=
  ⟨claim_C9_local_control_always_succeeds.1 env_all_down [],
   claim_C9_local_control_always_succeeds.2 env_all_down []
     [("mac", ResultValue.flag true),
      ("dashboard", ResultValue.dashboard create_unified_dashboard)] (by decide)⟩

/-- Claim C10: a workload type absent from the static routing table gets the
single-element candidate list `["dgx-spark"]`, and selection then always
returns the gateway registry entry (either scored, or via the fallback)
without raising and without considering any other registry host. -/
theorem claim_C10_unknown_workload_gateway_only (w : String)
    (h : routing_rules.lookup w = none) :
    candidates w = ["dgx-spark"] ∧
    ∀ (env : Env) (m : String), select_optimal_system env w m = some dgx_spark_system := by
  have hc : candidates w = ["dgx-spark"] := by
    unfold candidates
    rw [h]
  refine ⟨hc, ?_⟩
  intro env m
  unfold select_optimal_system
  rw [hc]
  have hfd : findSystem "dgx-spark" = some dgx_spark_system := by decide
  simp only [available_systems, hfd]
  by_cases hav : check_system_availability env dgx_spark_system
  · rw [if_pos hav]
    by_cases hres : (get_system_resources env dgx_spark_system).get_available
    · rw [if_pos hres]
      rfl
    · rw [if_neg hres]
      exact hfd
  · rw [if_neg hav]
    exact hfd

theorem claim_C10_witness :
    candidates "production" = ["dgx-spark"] ∧
    select_optimal_system env_all_up "production" "large" = some dgx_spark_system := by
  have h := claim_C10_unknown_workload_gateway_only "production" (by decide)
  exact ⟨h.1, h.2 env_all_up "large"⟩

/-- Claim C1, evaluated on the code: the model-size preference list (here
`["hpc-1"]` for size `large`) is computed but never applied.  With hpc-1
unreachable and hpc-2 healthy, `select_optimal_system` for
(`batch_processing`, `large`) returns hpc-2 — a host excluded by the
spec's nonempty intersection `["hpc-1"]` — and the result does not depend
on the model size at all. -/
theorem claim_C1_model_size_never_applied :
    preferred_systems "large" = ["hpc-1"] ∧
    candidates_per_spec "batch_processing" "large" = ["hpc-1"] ∧
    select_optimal_system env_hpc1_down "batch_processing" "large" = some hpc2_system ∧
    ¬ ("hpc-2" ∈ candidates_per_spec "batch_processing" "large") ∧
    select_optimal_system env_hpc1_down "batch_processing" "large"
      = select_optimal_system env_hpc1_down "batch_processing" "small" :=
  ⟨by decide, by decide, by decide, by decide, by decide⟩

/-- Claim C6: a fleet run's result map has unique keys with exactly one
entry per requested (workload, resolved-host) pair — for every requested
workload, the key `f"{workload}_{host}"` built from its selection is
present with a boolean outcome — and the key set does not depend on
deployment outcomes: a second world with identical selection inputs but
arbitrarily different deploy/rsync/local-command behaviour (in particular,
arbitrary failures) yields exactly the same keys, so one workload's failure
never prevents the processing of subsequent workloads. -/
theorem claim_C6_one_entry_per_pair (env env2 : Env)
    (hp : ∀ h, env.ping h = env2.ping h) (hs : ∀ h, env.ssh_echo h = env2.ssh_echo h)
    (hn : ∀ h, env.nvidia h = env2.nvidia h)
    (ws : List String) (res res2 : List (String × ResultValue))
    (h : orchestrate_full_deployment env ws = some res)
    (h2 : orchestrate_full_deployment env2 ws = some res2) :
    (res.map Prod.fst).Nodup ∧
    (∀ w ∈ ws, ∃ k b, resolvedKey env w = some k ∧ (k, ResultValue.flag b) ∈ res) ∧
    res.map Prod.fst = res2.map Prod.fst := by
  simp only [orchestrate_full_deployment] at h h2
  have hfind : load_system_configs.find? (fun s => s.type = "mac") = some mac_system := by
    decide
  rw [hfind] at h h2
  dsimp only at h h2
  have h0 : dictSet [] "mac" (ResultValue.flag (deploy_to_system env mac_system []))
      = [("mac", ResultValue.flag true)] := rfl
  have h02 : dictSet [] "mac" (ResultValue.flag (deploy_to_system env2 mac_system []))
      = [("mac", ResultValue.flag true)] := rfl
  rw [h0] at h
  rw [h02] at h2
  cases hdw : deploy_workloads env ws [("mac", ResultValue.flag true)] with
  | none => rw [hdw] at h; exact absurd h (by simp)
  | some res0 =>
    rw [hdw] at h
    simp only [Option.some.injEq] at h
    subst h
    cases hdw2 : deploy_workloads env2 ws [("mac", ResultValue.flag true)] with
    | none => rw [hdw2] at h2; exact absurd h2 (by simp)
    | some res02 =>
      rw [hdw2] at h2
      simp only [Option.some.injEq] at h2
      subst h2
      refine ⟨?_, ?_, ?_⟩
      · exact dictSet_keys_nodup _ _ _
          (deploy_workloads_nodup env ws _ res0 hdw (by decide))
      · intro w hw
        obtain ⟨k, b, hk, hmem⟩ := deploy_workloads_inserts env ws _ res0 hdw w hw
        have hkform : ∃ sysname, k = w ++ "_" ++ sysname := by
          unfold resolvedKey at hk
          cases hsel : select_optimal_system env w "medium" with
          | none => rw [hsel] at hk; simp at hk
          | some sys =>
            rw [hsel] at hk
            simp at hk
            exact ⟨sys.name, hk.symm⟩
        obtain ⟨sysname, rfl⟩ := hkform
        exact ⟨_, b, hk, mem_dictSet_of_ne _ _ _ _ _ hmem
          (key_ne_of_no_underscore w sysname "dashboard" (by decide))⟩
      · have hkeys : res0.map Prod.fst = res02.map Prod.fst :=
          deploy_workloads_keys_congr env env2 hp hs hn ws _ _ res0 res02 rfl hdw hdw2
        rw [dictSet_keys, dictSet_keys, any_fst_eq, any_fst_eq, hkeys]

theorem claim_C6_witness :
    (([("mac", ResultValue.flag true),
       ("development_dgx-spark", ResultValue.flag true),
       ("batch_processing_hpc-1", ResultValue.flag true),
       ("dashboard", ResultValue.dashboard create_unified_dashboard)] :
        List (String × ResultValue)).map Prod.fst).Nodup ∧
    (∃ k b, resolvedKey env_all_up "development" = some k ∧
      (k, ResultValue.flag b) ∈
        ([("mac", ResultValue.flag true),
          ("development_dgx-spark", ResultValue.flag true),
          ("batch_processing_hpc-1", ResultValue.flag true),
          ("dashboard", ResultValue.dashboard create_unified_dashboard)] :
            List (String × ResultValue))) ∧
    ([("mac", ResultValue.flag true),
      ("development_dgx-spark", ResultValue.flag true),
      ("batch_processing_hpc-1", ResultValue.flag true),
      ("dashboard", ResultValue.dashboard create_unified_dashboard)] :
        List (String × ResultValue)).map Prod.fst
      = ([("mac", ResultValue.flag true),
          ("development_dgx-spark", ResultValue.flag false),
          ("batch_processing_hpc-1", ResultValue.flag false),
          ("dashboard", ResultValue.dashboard create_unified_dashboard)] :
            List (String × ResultValue)).map Prod.fst := by
  have h := claim_C6_one_entry_per_pair env_all_up env_deploy_fail
    (fun _ => rfl) (fun _ => rfl) (fun _ => rfl)
    ["development", "batch_processing"]
    [("mac", ResultValue.flag true),
     ("development_dgx-spark", ResultValue.flag true),
     ("batch_processing_hpc-1", ResultValue.flag true),
     ("dashboard", ResultValue.dashboard create_unified_dashboard)]
    [("mac", ResultValue.flag true),
     ("development_dgx-spark", ResultValue.flag false),
     ("batch_processing_hpc-1", ResultValue.flag false),
     ("dashboard", ResultValue.dashboard create_unified_dashboard)]
    (by decide) (by decide)
  exact ⟨h.1, h.2.1 "development" (by decide), h.2.2⟩
